import Mathlib

/-!
Verification of the annotation interaction engine of the Major-Project
repository (frontend X-ray annotation canvas).  The definitions below are a
shallow embedding of the TypeScript source in
`src/frontend/src/components/xray/AnnotationList.tsx` (which concatenates the
`AnnotationList`, `ShapeDimensions`, `ImageCanvas` and `ImageAdjustments`
components) and `src/frontend/src/pages/XRayAnnotation.tsx`.  JavaScript
numbers are modelled as exact rationals; `Math.sqrt` comparisons are encoded
square-free (see the `sqrtLtQ`/`sqrtLeQ`/`ltSqrtQ` helpers, each proved
equivalent to the corresponding `Real.sqrt` comparison).  Identifiers follow
the source names, with `Annotation` abbreviated to `Annot`/`Ann`.
-/

set_option linter.unusedVariables false
set_option linter.unreachableTactic false
set_option linter.unusedTactic false

/-- A 2D point in image space (source: the `{ x: number; y: number }` records). -/
structure Point where
  x : ℚ
  y : ℚ
deriving DecidableEq

/-- Shape/tool variant tags (source: the `AnnotationTool` union type in
`AnnotationToolbar.tsx`, also used as the shape `type` field). -/
inductive AnnType where
  | marker
  | box
  | circle
  | ellipse
  | line
  | freehand
  | ruler
  | angle
  | text
  | select
  | eraser
deriving DecidableEq

/-- A shape record (source: the `Annotation` interface in `ImageCanvas.tsx`).
`Date.now()` string ids are modelled as naturals; the optional `locked` flag is
a `Bool` (absent behaves as `false` under JS truthiness, which is how every
read in the source treats it). -/
structure Annot where
  id : Nat
  type : AnnType
  points : List Point
  color : String
  text : Option String := none
  label : Option String := none
  locked : Bool := false
deriving DecidableEq

/-! ## Page-level state and the history stack
Source: `src/frontend/src/pages/XRayAnnotation.tsx`. -/

/-- The page state relevant to the annotation collection and its history
(source: the `useState` hooks `annotations`, `selectedAnnotation`, `history`,
`historyIndex` in `XRayAnnotation.tsx`). -/
structure PageState where
  anns : List Annot
  selectedAnn : Option Nat
  history : List (List Annot)
  historyIndex : Nat
deriving DecidableEq

/-- Source: the initial hook values `useState<Annotation[]>([])`,
`useState<string | null>(null)`, `useState<Annotation[][]>([[]])`,
`useState(0)`. -/
def initPage : PageState :=
  { anns := [], selectedAnn := none, history := [[]], historyIndex := 0 }

/-- Source: `handleAnnotationsChange` (XRayAnnotation.tsx lines 244-255).
With `skipHistory` the collection is replaced in place; otherwise the history
is truncated at the current index, the new collection appended, and the index
moved to the new last entry. -/
def handleAnnsChange (s : PageState) (newAnns : List Annot) (skipHistory : Bool) :
    PageState :=
  if skipHistory then { s with anns := newAnns }
  else
    { s with
      anns := newAnns
      history := s.history.take (s.historyIndex + 1) ++ [newAnns]
      historyIndex := (s.history.take (s.historyIndex + 1) ++ [newAnns]).length - 1 }

/-- A history commit: `handleAnnotationsChange` with the default
`skipHistory = false`. -/
def pushCommit (s : PageState) (newAnns : List Annot) : PageState :=
  handleAnnsChange s newAnns false

/-- Source: `handleUndo` (XRayAnnotation.tsx lines 257-264). -/
def handleUndo (s : PageState) : PageState :=
  if 0 < s.historyIndex then
    { s with
      historyIndex := s.historyIndex - 1
      anns := s.history.getD (s.historyIndex - 1) []
      selectedAnn := none }
  else s

/-- Source: `handleRedo` (XRayAnnotation.tsx lines 266-273). -/
def handleRedo (s : PageState) : PageState :=
  if s.historyIndex < s.history.length - 1 then
    { s with
      historyIndex := s.historyIndex + 1
      anns := s.history.getD (s.historyIndex + 1) []
      selectedAnn := none }
  else s

/-- The collection update made by `handleToggleLock`: flip `locked` on the
matching id (XRayAnnotation.tsx line 297). -/
def lockMap (anns : List Annot) (i : Nat) : List Annot :=
  anns.map (fun ann => if ann.id == i then { ann with locked := !ann.locked } else ann)

/-- Source: `handleToggleLock` (XRayAnnotation.tsx lines 295-304): updates the
collection and pushes the updated collection as a new history entry. -/
def handleToggleLock (s : PageState) (i : Nat) : PageState :=
  { s with
    anns := lockMap s.anns i
    history := s.history.take (s.historyIndex + 1) ++ [lockMap s.anns i]
    historyIndex := (s.history.take (s.historyIndex + 1) ++ [lockMap s.anns i]).length - 1 }

/-- The collection update made by `handleLabelChange` (XRayAnnotation.tsx
line 291). -/
def labelMap (anns : List Annot) (i : Nat) (newLabel : String) : List Annot :=
  anns.map (fun ann => if ann.id == i then { ann with label := some newLabel } else ann)

/-- Source: `handleLabelChange` (XRayAnnotation.tsx lines 289-293): updates the
collection only; no history interaction. -/
def handleLabelChange (s : PageState) (i : Nat) (newLabel : String) : PageState :=
  { s with anns := labelMap s.anns i newLabel }

/-- Commit a list of collections in order. -/
def commitList (s : PageState) (cs : List (List Annot)) : PageState :=
  cs.foldl pushCommit s

/-- Iterated undo. -/
def undoN : Nat → PageState → PageState
  | 0, s => s
  | m + 1, s => undoN m (handleUndo s)

/-- Iterated redo. -/
def redoN : Nat → PageState → PageState
  | 0, s => s
  | m + 1, s => redoN m (handleRedo s)

/-- The basic well-formedness of the history state, true initially and
maintained by every commit: the index is in range and the live collection is
the entry at the index. -/
def HistInv (s : PageState) : Prop :=
  s.historyIndex < s.history.length ∧ s.anns = s.history.getD s.historyIndex []

theorem histInv_init : HistInv initPage := by
  constructor <;> simp [initPage, List.getD]

theorem length_take_of_lt {α : Type} (l : List α) (i : Nat) (h : i < l.length) :
    (l.take (i + 1)).length = i + 1 := by
  simp [List.length_take]
  omega

theorem getD_append_sing {α : Type} [Inhabited α] {l : List α} {n : Nat}
    (h : l.length = n) (a d : α) : (l ++ [a]).getD n d = a := by
  subst h
  simp [List.getD]

theorem getD_take_append {α : Type} [Inhabited α] (l : List α) (rest : List α)
    (i j : Nat) (hj : j ≤ i) (hi : i < l.length) (d : α) :
    (l.take (i + 1) ++ rest).getD j d = l.getD j d := by
  have hjlen : j < (l.take (i + 1)).length := by
    rw [length_take_of_lt l i hi]; omega
  rw [List.getD_eq_getElem?_getD, List.getD_eq_getElem?_getD,
    List.getElem?_append, if_pos hjlen, List.getElem?_take, if_pos (by omega : j < i + 1)]

theorem pushCommit_spec (s : PageState) (a : List Annot) (h : HistInv s) :
    (pushCommit s a).anns = a ∧
    (pushCommit s a).history = s.history.take (s.historyIndex + 1) ++ [a] ∧
    (pushCommit s a).historyIndex = s.historyIndex + 1 ∧
    HistInv (pushCommit s a) := by
  obtain ⟨hlt, hann⟩ := h
  have htake := length_take_of_lt s.history s.historyIndex hlt
  have hidx : (s.history.take (s.historyIndex + 1) ++ [a]).length - 1 =
      s.historyIndex + 1 := by
    simp [htake]
  have hidx2 : (pushCommit s a).historyIndex = s.historyIndex + 1 := by
    simp [pushCommit, handleAnnsChange, hidx]
    omega
  refine ⟨rfl, rfl, hidx2, ?_, ?_⟩
  · show (pushCommit s a).historyIndex < (s.history.take (s.historyIndex + 1) ++ [a]).length
    rw [hidx2]
    simp [htake]
  · show a = (s.history.take (s.historyIndex + 1) ++ [a]).getD (pushCommit s a).historyIndex []
    rw [hidx2, getD_append_sing htake]

theorem commitList_spec (cs : List (List Annot)) (s : PageState) (h : HistInv s) :
    HistInv (commitList s cs) ∧
    (commitList s cs).historyIndex = s.historyIndex + cs.length := by
  induction cs generalizing s with
  | nil => exact ⟨h, by simp [commitList]⟩
  | cons c rest ih =>
    obtain ⟨-, -, hidx, hinv⟩ := pushCommit_spec s c h
    obtain ⟨h1, h2⟩ := ih (pushCommit s c) hinv
    refine ⟨h1, ?_⟩
    show (commitList (pushCommit s c) rest).historyIndex = _
    rw [h2, hidx]
    simp
    omega

theorem undoN_spec (m : Nat) (s : PageState) (h : HistInv s) (hm : m ≤ s.historyIndex) :
    (undoN m s).history = s.history ∧
    (undoN m s).historyIndex = s.historyIndex - m ∧
    HistInv (undoN m s) := by
  induction m generalizing s with
  | zero => exact ⟨rfl, by simp [undoN], h⟩
  | succ m ih =>
    have hpos : 0 < s.historyIndex := by omega
    have hstep : handleUndo s =
        { s with
          historyIndex := s.historyIndex - 1
          anns := s.history.getD (s.historyIndex - 1) []
          selectedAnn := none } := by
      simp [handleUndo, hpos]
    have hinv : HistInv (handleUndo s) := by
      rw [hstep]
      refine ⟨?_, ?_⟩
      · show s.historyIndex - 1 < s.history.length
        have := h.1
        omega
      · rfl
    have hm2 : m ≤ (handleUndo s).historyIndex := by
      rw [hstep]
      show m ≤ s.historyIndex - 1
      omega
    obtain ⟨h1, h2, h3⟩ := ih (handleUndo s) hinv hm2
    refine ⟨?_, ?_, h3⟩
    · show (undoN m (handleUndo s)).history = _
      rw [h1, hstep]
    · show (undoN m (handleUndo s)).historyIndex = _
      rw [h2, hstep]
      show s.historyIndex - 1 - m = s.historyIndex - (m + 1)
      omega

theorem redoN_spec (m : Nat) (s : PageState) (h : HistInv s)
    (hm : s.historyIndex + m < s.history.length) :
    (redoN m s).history = s.history ∧
    (redoN m s).historyIndex = s.historyIndex + m ∧
    HistInv (redoN m s) := by
  induction m generalizing s with
  | zero => exact ⟨rfl, by simp [redoN], h⟩
  | succ m ih =>
    have hcond : s.historyIndex < s.history.length - 1 := by omega
    have hstep : handleRedo s =
        { s with
          historyIndex := s.historyIndex + 1
          anns := s.history.getD (s.historyIndex + 1) []
          selectedAnn := none } := by
      simp [handleRedo, hcond]
    have hinv : HistInv (handleRedo s) := by
      rw [hstep]
      refine ⟨?_, ?_⟩
      · show s.historyIndex + 1 < s.history.length
        omega
      · rfl
    have hm2 : (handleRedo s).historyIndex + m < (handleRedo s).history.length := by
      rw [hstep]
      show s.historyIndex + 1 + m < s.history.length
      omega
    obtain ⟨h1, h2, h3⟩ := ih (handleRedo s) hinv hm2
    refine ⟨?_, ?_, h3⟩
    · show (redoN m (handleRedo s)).history = _
      rw [h1, hstep]
    · show (redoN m (handleRedo s)).historyIndex = _
      rw [h2, hstep]
      show s.historyIndex + 1 + m = s.historyIndex + (m + 1)
      omega

theorem undo_redo_roundtrip (m : Nat) (s : PageState) (h : HistInv s)
    (hm : m ≤ s.historyIndex) :
    (redoN m (undoN m s)).anns = s.anns ∧
    (redoN m (undoN m s)).history = s.history ∧
    (redoN m (undoN m s)).historyIndex = s.historyIndex := by
  obtain ⟨hu1, hu2, hu3⟩ := undoN_spec m s h hm
  have hm2 : (undoN m s).historyIndex + m < (undoN m s).history.length := by
    rw [hu1, hu2]
    have := h.1
    omega
  obtain ⟨hr1, hr2, hr3⟩ := redoN_spec m (undoN m s) hu3 hm2
  have hidx : (redoN m (undoN m s)).historyIndex = s.historyIndex := by
    rw [hr2, hu2]; omega
  refine ⟨?_, by rw [hr1, hu1], hidx⟩
  have := hr3.2
  rw [this, hr1, hu1, hidx, ← h.2]

/-- Claim C4: for every sequence of N history commits and every M ≤ N,
performing undo M times followed by redo M times restores the annotation
collection (and the whole history state) that was current before the first
undo, and a new commit after the undos truncates the history to the first
`index + 1` entries plus the new one, so the discarded entries are out of
redo's range. -/
theorem c4_undo_redo_roundtrip (cs : List (List Annot)) (m : Nat) (hm : m ≤ cs.length) :
    (redoN m (undoN m (commitList initPage cs))).anns = (commitList initPage cs).anns ∧
    (redoN m (undoN m (commitList initPage cs))).history = (commitList initPage cs).history ∧
    (redoN m (undoN m (commitList initPage cs))).historyIndex =
      (commitList initPage cs).historyIndex ∧
    ∀ a : List Annot,
      (pushCommit (undoN m (commitList initPage cs)) a).history =
        (undoN m (commitList initPage cs)).history.take
          ((undoN m (commitList initPage cs)).historyIndex + 1) ++ [a] ∧
      (pushCommit (undoN m (commitList initPage cs)) a).history.length =
        (undoN m (commitList initPage cs)).historyIndex + 2 := by
  obtain ⟨hinv, hidx⟩ := commitList_spec cs initPage histInv_init
  have hidx0 : (commitList initPage cs).historyIndex = cs.length := by
    rw [hidx]
    show 0 + cs.length = cs.length
    omega
  have hm2 : m ≤ (commitList initPage cs).historyIndex := by omega
  obtain ⟨r1, r2, r3⟩ := undo_redo_roundtrip m (commitList initPage cs) hinv hm2
  obtain ⟨u1, u2, u3⟩ := undoN_spec m (commitList initPage cs) hinv hm2
  refine ⟨r1, r2, r3, fun a => ?_⟩
  obtain ⟨-, p2, -, -⟩ := pushCommit_spec (undoN m (commitList initPage cs)) a u3
  refine ⟨p2, ?_⟩
  rw [p2]
  have := length_take_of_lt (undoN m (commitList initPage cs)).history
    (undoN m (commitList initPage cs)).historyIndex u3.1
  simp [this]

/-- A concrete shape used by the witnesses below. -/
def annA : Annot :=
  { id := 1, type := AnnType.box, points := [⟨0, 0⟩, ⟨2, 3⟩], color := "#22c55e" }

theorem c4_undo_redo_roundtrip_witness :
    1 ≤ ([[annA]] : List (List Annot)).length ∧
    (redoN 1 (undoN 1 (commitList initPage [[annA]]))).anns =
      (commitList initPage [[annA]]).anns ∧
    (pushCommit (undoN 1 (commitList initPage [[annA]])) []).history.length =
      (undoN 1 (commitList initPage [[annA]])).historyIndex + 2 :=
  ⟨by decide,
   (c4_undo_redo_roundtrip [[annA]] 1 (by decide)).1,
   ((c4_undo_redo_roundtrip [[annA]] 1 (by decide)).2.2.2 []).2⟩

/-- Claim C10: toggling a shape's locked flag appends a new history entry
(and is undoable: one undo returns to the pre-toggle collection), while a
label edit rewrites the collection without touching the history list or the
current index. -/
theorem c10_lock_history_label_no_history (s : PageState) (i : Nat) (lbl : String)
    (hlt : s.historyIndex < s.history.length) :
    (handleToggleLock s i).history =
      s.history.take (s.historyIndex + 1) ++ [lockMap s.anns i] ∧
    (handleToggleLock s i).history.length = s.historyIndex + 2 ∧
    (handleToggleLock s i).historyIndex = s.historyIndex + 1 ∧
    (handleToggleLock s i).anns = lockMap s.anns i ∧
    (handleUndo (handleToggleLock s i)).anns = s.history.getD s.historyIndex [] ∧
    (handleUndo (handleToggleLock s i)).historyIndex = s.historyIndex ∧
    (handleLabelChange s i lbl).history = s.history ∧
    (handleLabelChange s i lbl).historyIndex = s.historyIndex ∧
    (handleLabelChange s i lbl).anns = labelMap s.anns i lbl := by
  have htake := length_take_of_lt s.history s.historyIndex hlt
  have hlen : (handleToggleLock s i).history.length = s.historyIndex + 2 := by
    show (s.history.take (s.historyIndex + 1) ++ [lockMap s.anns i]).length = _
    simp [htake]
  have hidx : (handleToggleLock s i).historyIndex = s.historyIndex + 1 := by
    show (s.history.take (s.historyIndex + 1) ++ [lockMap s.anns i]).length - 1 = _
    simp [htake]
  have hpos : 0 < (handleToggleLock s i).historyIndex := by rw [hidx]; omega
  have hu : handleUndo (handleToggleLock s i) =
      { handleToggleLock s i with
        historyIndex := (handleToggleLock s i).historyIndex - 1
        anns := (handleToggleLock s i).history.getD
          ((handleToggleLock s i).historyIndex - 1) []
        selectedAnn := none } := by
    simp [handleUndo, hpos]
  refine ⟨rfl, hlen, hidx, rfl, ?_, ?_, rfl, rfl, rfl⟩
  · rw [hu]
    show (handleToggleLock s i).history.getD ((handleToggleLock s i).historyIndex - 1) [] = _
    rw [hidx]
    show (s.history.take (s.historyIndex + 1) ++ [lockMap s.anns i]).getD
      (s.historyIndex + 1 - 1) [] = _
    have : s.historyIndex + 1 - 1 = s.historyIndex := by omega
    rw [this, getD_take_append s.history [lockMap s.anns i] s.historyIndex s.historyIndex
      (le_refl _) hlt []]
  · rw [hu]
    show (handleToggleLock s i).historyIndex - 1 = _
    rw [hidx]
    omega

theorem c10_lock_history_label_no_history_witness :
    (1 : Nat) < ([[], [annA]] : List (List Annot)).length ∧
    (handleUndo (handleToggleLock ⟨[annA], none, [[], [annA]], 1⟩ 1)).anns =
      ([[], [annA]] : List (List Annot)).getD 1 [] ∧
    (handleLabelChange (⟨[annA], none, [[], [annA]], 1⟩ : PageState) 1 "L").history =
      [[], [annA]] :=
  ⟨by decide,
   (c10_lock_history_label_no_history ⟨[annA], none, [[], [annA]], 1⟩ 1 "L"
     (by decide)).2.2.2.2.1,
   (c10_lock_history_label_no_history ⟨[annA], none, [[], [annA]], 1⟩ 1 "L"
     (by decide)).2.2.2.2.2.2.1⟩


/-! ## Geometry helpers
Source file: `src/frontend/src/components/xray/AnnotationList.tsx`
(the `ImageCanvas` component).  The source compares `Math.sqrt e` against
bounds; since the embedding works in exact rationals, each comparison is
encoded by the equivalent square comparison, and the three encodings are
proved equivalent to the corresponding `Real.sqrt` comparison below. -/

/-- `x * x` (source: `Math.pow(x, 2)`). -/
def sqQ (q : ℚ) : ℚ := q * q

/-- Encoding of `Math.sqrt a < b` for a nonnegative radicand `a`. -/
def sqrtLtQ (a b : ℚ) : Bool := decide (0 < b) && decide (a < b * b)

/-- Encoding of `Math.sqrt a <= b` for a nonnegative radicand `a`. -/
def sqrtLeQ (a b : ℚ) : Bool := decide (0 ≤ b) && decide (a ≤ b * b)

/-- Encoding of `b < Math.sqrt a` for a nonnegative radicand `a`. -/
def ltSqrtQ (b a : ℚ) : Bool := decide (b < 0) || decide (b * b < a)

theorem sqrtLtQ_correct (a b : ℚ) (ha : 0 ≤ a) :
    sqrtLtQ a b = true ↔ Real.sqrt (a : ℝ) < (b : ℝ) := by
  simp only [sqrtLtQ, Bool.and_eq_true, decide_eq_true_eq]
  constructor
  · rintro ⟨hb, hab⟩
    rw [Real.sqrt_lt' (by exact_mod_cast hb)]
    have h2 : (a : ℝ) < (b : ℝ) * (b : ℝ) := by exact_mod_cast hab
    nlinarith [h2]
  · intro h
    have hb : (0 : ℝ) < (b : ℝ) := lt_of_le_of_lt (Real.sqrt_nonneg _) h
    have hb2 : (0 : ℚ) < b := by exact_mod_cast hb
    refine ⟨hb2, ?_⟩
    rw [Real.sqrt_lt' hb] at h
    have : (a : ℝ) < (b : ℝ) * (b : ℝ) := by nlinarith [h]
    exact_mod_cast this

theorem sqrtLeQ_correct (a b : ℚ) (ha : 0 ≤ a) :
    sqrtLeQ a b = true ↔ Real.sqrt (a : ℝ) ≤ (b : ℝ) := by
  simp only [sqrtLeQ, Bool.and_eq_true, decide_eq_true_eq]
  rw [Real.sqrt_le_iff]
  constructor
  · rintro ⟨hb, hab⟩
    refine ⟨by exact_mod_cast hb, ?_⟩
    have h2 : (a : ℝ) ≤ (b : ℝ) * (b : ℝ) := by exact_mod_cast hab
    nlinarith [h2]
  · rintro ⟨hb, hab⟩
    refine ⟨by exact_mod_cast hb, ?_⟩
    have h2 : (a : ℝ) ≤ (b : ℝ) ^ 2 := hab
    have : (a : ℝ) ≤ (b : ℝ) * (b : ℝ) := by nlinarith [h2]
    exact_mod_cast this

theorem ltSqrtQ_correct (a b : ℚ) (ha : 0 ≤ a) :
    ltSqrtQ b a = true ↔ (b : ℝ) < Real.sqrt (a : ℝ) := by
  simp only [ltSqrtQ, Bool.or_eq_true, decide_eq_true_eq]
  constructor
  · rintro (hb | hab)
    · exact lt_of_lt_of_le (by exact_mod_cast hb) (Real.sqrt_nonneg _)
    · rcases lt_or_le b 0 with hb | hb
      · exact lt_of_lt_of_le (by exact_mod_cast hb) (Real.sqrt_nonneg _)
      · rw [Real.lt_sqrt (by exact_mod_cast hb)]
        have h2 : (b : ℝ) * (b : ℝ) < (a : ℝ) := by exact_mod_cast hab
        nlinarith [h2]
  · intro h
    rcases lt_or_le b 0 with hb | hb
    · exact Or.inl hb
    · right
      rw [Real.lt_sqrt (by exact_mod_cast hb)] at h
      have : (b : ℝ) * (b : ℝ) < (a : ℝ) := by nlinarith [h]
      exact_mod_cast this

/-- Axis-aligned bounding box. -/
structure Bounds where
  minX : ℚ
  maxX : ℚ
  minY : ℚ
  maxY : ℚ
deriving DecidableEq

/-- min/max bounds of two points (source: the box/text/ellipse/circle and
line/ruler cases of `getAnnotationBounds`, AnnotationList.tsx lines 435-454). -/
def twoBounds (p0 p1 : Point) : Bounds :=
  { minX := min p0.x p1.x, maxX := max p0.x p1.x
    minY := min p0.y p1.y, maxY := max p0.y p1.y }

/-- Folded min/max bounds of a nonempty point list (source: the
`forEach`-accumulated bounds of the angle and freehand cases, starting from
infinities; for the nonempty lists the guards allow, the fold below is the
same value). -/
def ptsBounds (p : Point) (ps : List Point) : Bounds :=
  ps.foldl
    (fun b q =>
      { minX := min b.minX q.x, maxX := max b.maxX q.x
        minY := min b.minY q.y, maxY := max b.maxY q.y })
    { minX := p.x, maxX := p.x, minY := p.y, maxY := p.y }

/-- Source: `getAnnotationBounds` (AnnotationList.tsx lines 423-478). -/
def getAnnBounds (a : Annot) : Option Bounds :=
  match a.type, a.points with
  | .marker, p :: _ =>
      some { minX := p.x - 15, maxX := p.x + 15, minY := p.y - 15, maxY := p.y + 15 }
  | .box, p0 :: p1 :: _ => some (twoBounds p0 p1)
  | .text, p0 :: p1 :: _ => some (twoBounds p0 p1)
  | .ellipse, p0 :: p1 :: _ => some (twoBounds p0 p1)
  | .circle, p0 :: p1 :: _ => some (twoBounds p0 p1)
  | .line, p0 :: p1 :: _ => some (twoBounds p0 p1)
  | .ruler, p0 :: p1 :: _ => some (twoBounds p0 p1)
  | .angle, p :: q :: rest => some (ptsBounds p (q :: rest))
  | .freehand, p :: rest => some (ptsBounds p rest)
  | _, _ => none

/-- The circle radius used by both the renderer (`cR_r`, AnnotationList.tsx
line 1108) and the hit test (`cR`, line 513): `max(|dx|, |dy|) / 2`. -/
def circleRadius (p0 p1 : Point) : ℚ :=
  max |p1.x - p0.x| |p1.y - p0.y| / 2

/-- Segment proximity test (source: the line/ruler case of
`isPointNearAnnotation`, AnnotationList.tsx lines 530-546, also used per
segment by the angle case).  The source divides the dot product by
`lineLen * lineLen` where `lineLen = Math.sqrt len2`, which is exactly `len2`;
the zero test `lineLen === 0` is exactly `len2 = 0`. -/
def segNear (t : ℚ) (pos p q : Point) : Bool :=
  let len2 := sqQ (q.x - p.x) + sqQ (q.y - p.y)
  if len2 = 0 then false
  else
    let tp := max 0 (min 1
      (((pos.x - p.x) * (q.x - p.x) + (pos.y - p.y) * (q.y - p.y)) / len2))
    let projX := p.x + tp * (q.x - p.x)
    let projY := p.y + tp * (q.y - p.y)
    sqrtLtQ (sqQ (pos.x - projX) + sqQ (pos.y - projY)) t

/-- The angle case's loop over consecutive point pairs (AnnotationList.tsx
lines 550-562); a zero-length segment is skipped (`continue`), which is the
`segNear = false` branch here. -/
def anySegNear (t : ℚ) (pos : Point) : List Point → Bool
  | p :: q :: rest => segNear t pos p q || anySegNear t pos (q :: rest)
  | _ => false

/-- Source: `isPointNearAnnotation` (AnnotationList.tsx lines 481-584) with
the threshold as a parameter (the source computes `threshold = 15 / zoom` once
at the top; see `isPointNearAnn`).  Each `Math.sqrt` comparison is encoded by
the equivalent square comparison (`sqrtLtQ`/`sqrtLeQ`/`ltSqrtQ`). -/
def isNearT (t : ℚ) (pos : Point) (a : Annot) : Bool :=
  match a.type, a.points with
  | .marker, p :: _ =>
      sqrtLtQ (sqQ (p.x - pos.x) + sqQ (p.y - pos.y)) (t + 15)
  | .box, p0 :: p1 :: _ =>
      let b := twoBounds p0 p1
      let insideBox :=
        decide (b.minX ≤ pos.x ∧ pos.x ≤ b.maxX ∧ b.minY ≤ pos.y ∧ pos.y ≤ b.maxY)
      let nearLeftEdge :=
        decide (|pos.x - b.minX| < t ∧ b.minY - t ≤ pos.y ∧ pos.y ≤ b.maxY + t)
      let nearRightEdge :=
        decide (|pos.x - b.maxX| < t ∧ b.minY - t ≤ pos.y ∧ pos.y ≤ b.maxY + t)
      let nearTopEdge :=
        decide (|pos.y - b.minY| < t ∧ b.minX - t ≤ pos.x ∧ pos.x ≤ b.maxX + t)
      let nearBottomEdge :=
        decide (|pos.y - b.maxY| < t ∧ b.minX - t ≤ pos.x ∧ pos.x ≤ b.maxX + t)
      insideBox || nearLeftEdge || nearRightEdge || nearTopEdge || nearBottomEdge
  | .circle, p0 :: p1 :: _ =>
      let cx := (p0.x + p1.x) / 2
      let cy := (p0.y + p1.y) / 2
      let r := circleRadius p0 p1
      let d2 := sqQ (pos.x - cx) + sqQ (pos.y - cy)
      (sqrtLtQ d2 (r + t) && ltSqrtQ (r - t) d2) || sqrtLeQ d2 r
  | .ellipse, p0 :: p1 :: _ =>
      let ecx := (p0.x + p1.x) / 2
      let ecy := (p0.y + p1.y) / 2
      let erx := |p1.x - p0.x| / 2
      let ery := |p1.y - p0.y| / 2
      if erx = 0 ∨ ery = 0 then false
      else
        sqrtLeQ (sqQ ((pos.x - ecx) / erx) + sqQ ((pos.y - ecy) / ery))
          (1 + t / min erx ery)
  | .line, p0 :: p1 :: _ => segNear t pos p0 p1
  | .ruler, p0 :: p1 :: _ => segNear t pos p0 p1
  | .angle, ps => if ps.length < 2 then false else anySegNear t pos ps
  | .freehand, ps =>
      ps.any fun p => sqrtLtQ (sqQ (p.x - pos.x) + sqQ (p.y - pos.y)) t
  | .text, p0 :: p1 :: _ =>
      let b := twoBounds p0 p1
      decide (b.minX - t ≤ pos.x ∧ pos.x ≤ b.maxX + t ∧
        b.minY - t ≤ pos.y ∧ pos.y ≤ b.maxY + t)
  | _, _ => false

/-- Source: `isPointNearAnnotation` with its zoom-derived threshold
`threshold = 15 / zoom` (AnnotationList.tsx line 482). -/
def isPointNearAnn (zoom : ℚ) (pos : Point) (a : Annot) : Bool :=
  isNearT (15 / zoom) pos a

/-- Hit test of a screen-space pointer offset from the image origin: the
image-space position is `offset / zoom` (source: `getRelativePosition`,
AnnotationList.tsx lines 413-420, with the pan already subtracted). -/
def hitAt (zoom : ℚ) (offset : Point) (a : Annot) : Bool :=
  isPointNearAnn zoom { x := offset.x / zoom, y := offset.y / zoom } a

/-! ## Shape dimensions panel (claim C3)
Source: `getDimensions` in the `ShapeDimensions` component
(AnnotationList.tsx lines 143-237). -/

/-- The radicand of the circle radius reported by the dimensions panel:
the source computes `radius = Math.sqrt(Math.pow(p1.x - p0.x, 2) +
Math.pow(p1.y - p0.y, 2))` and `diameter = radius * 2`
(AnnotationList.tsx lines 154-164). -/
def circleDimRadicand (p0 p1 : Point) : ℚ :=
  sqQ (p1.x - p0.x) + sqQ (p1.y - p0.y)

/-- Claim C3 (code bug): for a committed circle with points `(0,0)` and
`(4,0)`, the dimensions panel reports radius `sqrt 16 = 4` and diameter `8`,
while the circle actually rendered and hit-tested has radius
`max(|dx|, |dy|) / 2 = 2`; so the reported radius is not
`max(|dx|,|dy|)/2` and the reported diameter is not twice that radius,
contrary to the claim. -/
theorem c3_circle_dims_mismatch :
    Real.sqrt ((circleDimRadicand ⟨0, 0⟩ ⟨4, 0⟩ : ℚ) : ℝ) = 4 ∧
    Real.sqrt ((circleDimRadicand ⟨0, 0⟩ ⟨4, 0⟩ : ℚ) : ℝ) * 2 = 8 ∧
    circleRadius ⟨0, 0⟩ ⟨4, 0⟩ = 2 ∧
    Real.sqrt ((circleDimRadicand ⟨0, 0⟩ ⟨4, 0⟩ : ℚ) : ℝ) ≠
      ((circleRadius ⟨0, 0⟩ ⟨4, 0⟩ : ℚ) : ℝ) ∧
    Real.sqrt ((circleDimRadicand ⟨0, 0⟩ ⟨4, 0⟩ : ℚ) : ℝ) * 2 ≠
      2 * ((circleRadius ⟨0, 0⟩ ⟨4, 0⟩ : ℚ) : ℝ) := by
  have hrad : ((circleDimRadicand ⟨0, 0⟩ ⟨4, 0⟩ : ℚ) : ℝ) = 16 := by
    norm_num [circleDimRadicand, sqQ]
  have hs : Real.sqrt ((circleDimRadicand ⟨0, 0⟩ ⟨4, 0⟩ : ℚ) : ℝ) = 4 := by
    rw [hrad, show (16 : ℝ) = 4 ^ 2 by norm_num, Real.sqrt_sq (by norm_num : (0 : ℝ) ≤ 4)]
  have hr : circleRadius ⟨0, 0⟩ ⟨4, 0⟩ = 2 := by
    norm_num [circleRadius]
  refine ⟨hs, by rw [hs]; norm_num, hr, ?_, ?_⟩
  · rw [hs, hr]; norm_num
  · rw [hs, hr]; norm_num

/-! ## Shape mutation operations -/

/-- Source: `moveAnnotation` (AnnotationList.tsx lines 587-596): a locked
shape is returned unchanged, otherwise every point is translated. -/
def moveAnn (a : Annot) (deltaX deltaY : ℚ) : Annot :=
  if a.locked then a
  else { a with points := a.points.map fun p => { x := p.x + deltaX, y := p.y + deltaY } }

/-- The eight resize handles (source: the `ResizeHandle` union type,
AnnotationList.tsx line 323; `null` is modelled by `Option`). -/
inductive ResizeHandle where
  | nw
  | ne
  | sw
  | se
  | n
  | s
  | e
  | w
deriving DecidableEq

/-- Whether the handle's name contains `"n"`/`"s"`/`"w"`/`"e"` (source: the
`handle.includes(...)` tests in `handleMouseDown`, AnnotationList.tsx
lines 707-710). -/
def handleHasN : ResizeHandle → Bool
  | .nw | .ne | .n => true
  | _ => false

def handleHasS : ResizeHandle → Bool
  | .sw | .se | .s => true
  | _ => false

def handleHasW : ResizeHandle → Bool
  | .nw | .sw | .w => true
  | _ => false

def handleHasE : ResizeHandle → Bool
  | .ne | .se | .e => true
  | _ => false

/-- The anchor-point computation at pointer-down (source: `handleMouseDown`,
AnnotationList.tsx lines 703-712): start from `(minX, minY)` and move each
coordinate to the side opposite the grabbed handle. -/
def anchorFor (h : ResizeHandle) (b : Bounds) : Point :=
  let a0 : Point := { x := b.minX, y := b.minY }
  let a1 : Point := if handleHasN h then { a0 with y := b.maxY } else a0
  let a2 : Point := if handleHasS h then { a1 with y := b.minY } else a1
  let a3 : Point := if handleHasW h then { a2 with x := b.maxX } else a2
  if handleHasE h then { a3 with x := b.minX } else a3

/-- Source: `resizeAnnotation` (AnnotationList.tsx lines 599-629).  The
`resizeAnchor` component state read inside the source closure is an explicit
argument here.  `damping = 0.7` is applied to the delta from `startPos`, the
anchor becomes the new first point, and for pure edge handles the untouched
axis of the second point is preserved. -/
def resizeAnn (resizeAnchor : Option Point) (a : Annot) (handle : Option ResizeHandle)
    (newPos startPos : Point) : Annot :=
  match handle with
  | none => a
  | some h =>
    if a.points.length < 2 ∨ a.locked then a
    else
      let damping : ℚ := 7 / 10
      let dampedX := startPos.x + (newPos.x - startPos.x) * damping
      let dampedY := startPos.y + (newPos.y - startPos.y) * damping
      let anchor := resizeAnchor.getD (a.points.getD 0 ⟨0, 0⟩)
      let p0 := a.points.getD 0 ⟨0, 0⟩
      let p1 := a.points.getD 1 ⟨0, 0⟩
      let newP1a : Point := { x := dampedX, y := dampedY }
      let newP0a : Point := anchor
      let newP1b : Point :=
        if h = .n ∨ h = .s then { newP1a with x := if p0.x = anchor.x then p1.x else p0.x }
        else newP1a
      let newP0b : Point :=
        if h = .n ∨ h = .s then { newP0a with x := anchor.x } else newP0a
      let newP1c : Point :=
        if h = .e ∨ h = .w then { newP1b with y := if p0.y = anchor.y then p1.y else p0.y }
        else newP1b
      let newP0c : Point :=
        if h = .e ∨ h = .w then { newP0b with y := anchor.y } else newP0b
      { a with points := [newP0c, newP1c] }

/-- The variants whose selected shape shows resize handles (source: the type
list in `getResizeHandleAtPoint`, AnnotationList.tsx line 634). -/
def resizableType : AnnType → Bool
  | .box | .ellipse | .text | .circle | .line | .ruler => true
  | _ => false

/-- Source: `getResizeHandleAtPoint` (AnnotationList.tsx lines 632-657). -/
def getResizeHandleAtPoint (zoom : ℚ) (pos : Point) (a : Annot) :
    Option ResizeHandle :=
  if a.points.length < 2 then none
  else if !resizableType a.type then none
  else
    match getAnnBounds a with
    | none => none
    | some b =>
      let handleSize := 8 / zoom
      let midX := (b.minX + b.maxX) / 2
      let midY := (b.minY + b.maxY) / 2
      if |pos.x - b.minX| < handleSize ∧ |pos.y - b.minY| < handleSize then some .nw
      else if |pos.x - b.maxX| < handleSize ∧ |pos.y - b.minY| < handleSize then some .ne
      else if |pos.x - b.minX| < handleSize ∧ |pos.y - b.maxY| < handleSize then some .sw
      else if |pos.x - b.maxX| < handleSize ∧ |pos.y - b.maxY| < handleSize then some .se
      else if |pos.x - midX| < handleSize ∧ |pos.y - b.minY| < handleSize then some .n
      else if |pos.x - midX| < handleSize ∧ |pos.y - b.maxY| < handleSize then some .s
      else if |pos.x - b.minX| < handleSize ∧ |pos.y - midY| < handleSize then some .w
      else if |pos.x - b.maxX| < handleSize ∧ |pos.y - midY| < handleSize then some .e
      else none

/-! ## Wheel zoom (claim C8)
Source: `handleWheel` (AnnotationList.tsx lines 659-678). -/

/-- Image-space point under a screen point given pan and zoom (source:
`getRelativePosition`, AnnotationList.tsx lines 413-420: subtract the pan,
divide by the zoom). -/
def toImage (pan : Point) (zoom : ℚ) (screen : Point) : Point :=
  { x := (screen.x - pan.x) / zoom, y := (screen.y - pan.y) / zoom }

/-- Source: `handleWheel` (AnnotationList.tsx lines 659-678): factor 0.9 for a
positive wheel delta and 1.1 otherwise, new zoom clamped to `[0.1, 10]`, and
the pan solved so the pointer-anchored image point stays put.  Returns the new
pan and new zoom. -/
def handleWheelQ (zoom : ℚ) (position : Point) (mouse : Point) (deltaY : ℚ) :
    Point × ℚ :=
  let delta : ℚ := if 0 < deltaY then 9 / 10 else 11 / 10
  let newZoom := min (max (zoom * delta) (1 / 10)) 10
  ({ x := mouse.x - (mouse.x - position.x) * (newZoom / zoom)
     y := mouse.y - (mouse.y - position.y) * (newZoom / zoom) }, newZoom)

/-- Claim C8: after a wheel-zoom step (factor 1.1 or 0.9, clamped to the zoom
bounds `[0.1, 10]`), the image-space point under the pointer's screen position
is unchanged (exactly, in exact arithmetic). -/
theorem c8_wheel_zoom_fixpoint (zoom : ℚ) (position mouse : Point) (deltaY : ℚ)
    (hz : zoom ≠ 0) :
    toImage (handleWheelQ zoom position mouse deltaY).1
        (handleWheelQ zoom position mouse deltaY).2 mouse =
      toImage position zoom mouse ∧
    1 / 10 ≤ (handleWheelQ zoom position mouse deltaY).2 ∧
    (handleWheelQ zoom position mouse deltaY).2 ≤ 10 := by
  have hbound : 1 / 10 ≤ (handleWheelQ zoom position mouse deltaY).2 ∧
      (handleWheelQ zoom position mouse deltaY).2 ≤ 10 := by
    constructor
    · show 1 / 10 ≤ min (max _ (1 / 10)) 10
      exact le_min (le_max_right _ _) (by norm_num)
    · exact min_le_right _ _
  have hnz : (handleWheelQ zoom position mouse deltaY).2 ≠ 0 := by
    intro h0
    rw [h0] at hbound
    exact absurd hbound.1 (by norm_num)
  refine ⟨?_, hbound⟩
  show Point.mk _ _ = Point.mk _ _
  have hx : (mouse.x - (mouse.x - (mouse.x - position.x) *
      ((handleWheelQ zoom position mouse deltaY).2 / zoom))) /
      (handleWheelQ zoom position mouse deltaY).2 = (mouse.x - position.x) / zoom := by
    field_simp
    ring
  have hy : (mouse.y - (mouse.y - (mouse.y - position.y) *
      ((handleWheelQ zoom position mouse deltaY).2 / zoom))) /
      (handleWheelQ zoom position mouse deltaY).2 = (mouse.y - position.y) / zoom := by
    field_simp
    ring
  exact congrArg₂ Point.mk hx hy

theorem c8_wheel_zoom_fixpoint_witness :
    (2 : ℚ) ≠ 0 ∧
    toImage (handleWheelQ 2 ⟨1, 1⟩ ⟨3, 5⟩ 1).1 (handleWheelQ 2 ⟨1, 1⟩ ⟨3, 5⟩ 1).2 ⟨3, 5⟩ =
      toImage ⟨1, 1⟩ 2 ⟨3, 5⟩ :=
  ⟨by norm_num, (c8_wheel_zoom_fixpoint 2 ⟨1, 1⟩ ⟨3, 5⟩ 1 (by norm_num)).1⟩

/-! ## Anchor invariance of resizing (claim C7) -/

theorem resizeAnn_first (anchor : Point) (a : Annot) (h : ResizeHandle) (np sp : Point)
    (hlock : a.locked = false) (hlen : 2 ≤ a.points.length) :
    (resizeAnn (some anchor) a (some h) np sp).points.length = 2 ∧
    (resizeAnn (some anchor) a (some h) np sp).points.getD 0 ⟨0, 0⟩ = anchor ∧
    (resizeAnn (some anchor) a (some h) np sp).locked = false := by
  have hcond : ¬(a.points.length < 2 ∨ a.locked = true) := by
    simp [hlock]
    omega
  have hnlt : ¬a.points.length < 2 := by omega
  cases h <;> simp [resizeAnn, hcond, hnlt, hlock, List.getD]

theorem resize_fold (anchor : Point) (h : ResizeHandle) (moves : List (Point × Point))
    (a : Annot) (hlock : a.locked = false) (hlen : 2 ≤ a.points.length)
    (hne : moves ≠ []) :
    (moves.foldl (fun acc m => resizeAnn (some anchor) acc (some h) m.1 m.2) a).points.length
      = 2 ∧
    (moves.foldl (fun acc m => resizeAnn (some anchor) acc (some h) m.1 m.2) a).points.getD 0
      ⟨0, 0⟩ = anchor := by
  induction moves generalizing a with
  | nil => exact absurd rfl hne
  | cons m rest ih =>
    obtain ⟨hl2, hg, hlk⟩ := resizeAnn_first anchor a h m.1 m.2 hlock hlen
    rcases Decidable.em (rest = []) with hr | hr
    · subst hr
      exact ⟨hl2, hg⟩
    · have hrec := ih (resizeAnn (some anchor) a (some h) m.1 m.2) hlk (by omega) hr
      exact hrec

/-- Claim C7: for every resizable unlocked 2-point shape and each of the eight
resize handles, the anchor recorded at pointer-down is a corner of the shape's
bounding box (for corner handles, exactly the diagonally opposite corner), and
after every pointer-move of the resize gesture the shape's first point sits
exactly at that anchor, so the anchor's image-space position never changes
across the gesture. -/
theorem c7_anchor_invariance (a : Annot) (h : ResizeHandle) (b : Bounds)
    (moves : List (Point × Point))
    (hlock : a.locked = false) (hlen : a.points.length = 2)
    (htype : resizableType a.type = true) (hb : getAnnBounds a = some b)
    (hne : moves ≠ []) :
    ((anchorFor h b).x = b.minX ∨ (anchorFor h b).x = b.maxX) ∧
    ((anchorFor h b).y = b.minY ∨ (anchorFor h b).y = b.maxY) ∧
    (h = ResizeHandle.nw → anchorFor h b = ⟨b.maxX, b.maxY⟩) ∧
    (h = ResizeHandle.ne → anchorFor h b = ⟨b.minX, b.maxY⟩) ∧
    (h = ResizeHandle.sw → anchorFor h b = ⟨b.maxX, b.minY⟩) ∧
    (h = ResizeHandle.se → anchorFor h b = ⟨b.minX, b.minY⟩) ∧
    (moves.foldl (fun acc m => resizeAnn (some (anchorFor h b)) acc (some h) m.1 m.2)
        a).points.length = 2 ∧
    (moves.foldl (fun acc m => resizeAnn (some (anchorFor h b)) acc (some h) m.1 m.2)
        a).points.getD 0 ⟨0, 0⟩ = anchorFor h b := by
  obtain ⟨f1, f2⟩ := resize_fold (anchorFor h b) h moves a hlock (by omega) hne
  refine ⟨?_, ?_, ?_, ?_, ?_, ?_, f1, f2⟩ <;>
    cases h <;>
      simp [anchorFor, handleHasN, handleHasS, handleHasW, handleHasE]

theorem c7_anchor_invariance_witness :
    annA.locked = false ∧ annA.points.length = 2 ∧
    resizableType annA.type = true ∧
    getAnnBounds annA = some ⟨0, 2, 0, 3⟩ ∧
    ([(⟨20, 20⟩, ⟨10, 10⟩)] : List (Point × Point)) ≠ [] ∧
    (([(⟨20, 20⟩, ⟨10, 10⟩)] : List (Point × Point)).foldl
        (fun acc m =>
          resizeAnn (some (anchorFor ResizeHandle.se ⟨0, 2, 0, 3⟩)) acc
            (some ResizeHandle.se) m.1 m.2)
        annA).points.getD 0 ⟨0, 0⟩ = anchorFor ResizeHandle.se ⟨0, 2, 0, 3⟩ :=
  ⟨by decide, by decide, by decide, by decide, by decide,
   (c7_anchor_invariance annA ResizeHandle.se ⟨0, 2, 0, 3⟩ [(⟨20, 20⟩, ⟨10, 10⟩)]
      (by decide) (by decide) (by decide) (by decide) (by decide)).2.2.2.2.2.2.2⟩

/-! ## The canvas gesture state machine
Source: the `ImageCanvas` component state hooks and the handlers
`handleMouseDown` / `handleMouseMove` / `handleMouseUp` / `handleTextSubmit`
(AnnotationList.tsx lines 364-993).  The page-owned props (`annotations`,
`selectedAnnotation`, `activeTool`, `isPanning`, `zoom`, `position`) and the
component state are merged into one record; the callbacks
`onAnnotationsChange` / `onSelectedAnnotationChange` / `onToolChange` /
`onPositionChange` are the corresponding field updates.  The source's
`currentAnnotationRef` / `isDrawingRef` refs are separate fields, since the
text branch of `handleMouseDown` updates only the React state and not the
refs. -/

/-- Source: the `ANNOTATION_COLORS` palette (AnnotationList.tsx lines 342-354). -/
def annColor : AnnType → String
  | .marker => "#f43f5e"
  | .box => "#22c55e"
  | .circle => "#3b82f6"
  | .ellipse => "#ec4899"
  | .line => "#f59e0b"
  | .freehand => "#ef4444"
  | .ruler => "#8b5cf6"
  | .angle => "#06b6d4"
  | .text => "#a855f7"
  | .select => "#60a5fa"
  | .eraser => "#60a5fa"

/-- Source: `activeTool.charAt(0).toUpperCase() + activeTool.slice(1)`. -/
def capName : AnnType → String
  | .marker => "Marker"
  | .box => "Box"
  | .circle => "Circle"
  | .ellipse => "Ellipse"
  | .line => "Line"
  | .freehand => "Freehand"
  | .ruler => "Ruler"
  | .angle => "Angle"
  | .text => "Text"
  | .select => "Select"
  | .eraser => "Eraser"

/-- Source: the default labels, e.g.
``Box ${annotations.filter(a => a.type === activeTool).length + 1}``. -/
def countLabel (t : AnnType) (anns : List Annot) : String :=
  capName t ++ " " ++ toString ((anns.filter fun a => a.type == t).length + 1)

/-- Source: the `textInput` state record (AnnotationList.tsx line 390). -/
structure TextInputState where
  x : ℚ
  y : ℚ
  width : ℚ
  height : ℚ
  value : String
deriving DecidableEq

/-- The merged canvas + page interaction state (see the section comment). -/
structure CanvasState where
  anns : List Annot
  selectedAnn : Option Nat
  activeTool : AnnType
  isPanning : Bool
  zoom : ℚ
  position : Point
  isDrawing : Bool
  isErasing : Bool
  isDragging : Bool
  isResizing : Bool
  resizeHandle : Option ResizeHandle
  resizeStart : Option Point
  resizeAnchor : Option Point
  dragOffset : Option Point
  textInput : Option TextInputState
  textBoxStart : Option Point
  currentAnn : Option Annot
  currentAnnRef : Option Annot
  isDrawingRef : Bool
  dragStart : Option Point
  angleStep : Nat
  nextId : Nat
deriving DecidableEq

/-- Source: `getRelativePosition` (AnnotationList.tsx lines 413-420); the
container rectangle offset is absorbed into the event coordinates. -/
def relPosC (s : CanvasState) (e : Point) : Point :=
  { x := (e.x - s.position.x) / s.zoom, y := (e.y - s.position.y) / s.zoom }

/-- Source: the page's `handleToolChange` (XRayAnnotation.tsx lines 91-97):
switching to any non-select tool also clears the pan-hold flag. -/
def setToolC (s : CanvasState) (t : AnnType) : CanvasState :=
  { s with activeTool := t
           isPanning := if t = AnnType.select then s.isPanning else false }

/-- The initial canvas state (all hooks at their initial values, tool
`select`, zoom 1 and pan 0, fresh id counter standing in for `Date.now()`). -/
def initCanvas : CanvasState :=
  { anns := [], selectedAnn := none, activeTool := AnnType.select, isPanning := false,
    zoom := 1, position := ⟨0, 0⟩, isDrawing := false, isErasing := false,
    isDragging := false, isResizing := false, resizeHandle := none, resizeStart := none,
    resizeAnchor := none, dragOffset := none, textInput := none, textBoxStart := none,
    currentAnn := none, currentAnnRef := none, isDrawingRef := false, dragStart := none,
    angleStep := 0, nextId := 1 }

/-- Source: `handleMouseDown` (AnnotationList.tsx lines 680-816). -/
def handleMouseDownC (s : CanvasState) (e : Point) : CanvasState :=
  let pos := relPosC s e
  if s.isPanning then
    { s with dragStart := some ⟨e.x - s.position.x, e.y - s.position.y⟩ }
  else
    let resizeHit : Option CanvasState :=
      match s.selectedAnn with
      | none => none
      | some selId =>
        match s.anns.find? (fun a => a.id == selId) with
        | none => none
        | some selAnn =>
          if selAnn.locked then none
          else
            match getResizeHandleAtPoint s.zoom pos selAnn with
            | none => none
            | some h =>
              let s1 := { s with isResizing := true, resizeHandle := some h,
                                 resizeStart := some pos }
              some (match getAnnBounds selAnn with
                | none => s1
                | some b => { s1 with resizeAnchor := some (anchorFor h b) })
    match resizeHit with
    | some s2 => s2
    | none =>
      if s.activeTool = AnnType.select then
        match s.anns.find? (fun a => isPointNearAnn s.zoom pos a) with
        | some clicked =>
          let s1 := { s with selectedAnn := some clicked.id }
          if clicked.locked then s1
          else { s1 with isDragging := true, dragOffset := some pos }
        | none =>
          { s with selectedAnn := none,
                   dragStart := some ⟨e.x - s.position.x, e.y - s.position.y⟩ }
      else
        let s0 := { s with selectedAnn := none }
        if s.activeTool = AnnType.eraser then
          let s1 := { s0 with isErasing := true }
          -- NOTE the pointer-down eraser skips locked shapes (line 747)
          match s1.anns.find? (fun a => isPointNearAnn s.zoom pos a && !a.locked) with
          | some toRemove =>
            { s1 with anns := s1.anns.filter fun a => a.id != toRemove.id }
          | none => s1
        else if s.activeTool = AnnType.text then
          -- the source calls `setCurrentAnnotation` directly here, so the
          -- ref fields are NOT updated (lines 754-765)
          { s0 with
            textBoxStart := some pos
            isDrawing := true
            currentAnn := some
              { id := s.nextId, type := AnnType.text, points := [pos, pos],
                color := annColor AnnType.text,
                label := some (countLabel AnnType.text s.anns) }
            nextId := s.nextId + 1 }
        else if s.activeTool = AnnType.marker then
          let m : Annot :=
            { id := s.nextId, type := AnnType.marker, points := [pos],
              color := annColor AnnType.marker,
              label := some (countLabel AnnType.marker s.anns) }
          { s0 with
            anns := s0.anns ++ [m]
            selectedAnn := some m.id
            activeTool := AnnType.select
            nextId := s.nextId + 1 }
        else if s.activeTool = AnnType.angle then
          if s.angleStep = 0 then
            let a0 : Annot :=
              { id := s.nextId, type := AnnType.angle, points := [pos, pos],
                color := annColor AnnType.angle,
                label := some (countLabel AnnType.angle s.anns) }
            { s0 with currentAnn := some a0, currentAnnRef := some a0,
                      angleStep := 1, nextId := s.nextId + 1 }
          else if s.angleStep = 1 then
            match s.currentAnnRef with
            | some c =>
              let c2 := { c with points := [c.points.getD 0 ⟨0, 0⟩, pos, pos] }
              { s0 with currentAnn := some c2, currentAnnRef := some c2, angleStep := 2 }
            | none => s0
          else if s.angleStep = 2 then
            match s.currentAnnRef with
            | some c =>
              let completed :=
                { c with points := [c.points.getD 0 ⟨0, 0⟩, c.points.getD 1 ⟨0, 0⟩, pos] }
              { s0 with
                anns := s0.anns ++ [completed]
                selectedAnn := some completed.id
                activeTool := AnnType.select
                currentAnn := none
                currentAnnRef := none
                angleStep := 0 }
            | none => s0
          else s0
        else
          let na : Annot :=
            { id := s.nextId, type := s.activeTool, points := [pos, pos],
              color := annColor s.activeTool,
              label := some (countLabel s.activeTool s.anns) }
          { s0 with isDrawingRef := true, isDrawing := true,
                    currentAnn := some na, currentAnnRef := some na,
                    nextId := s.nextId + 1 }

/-- Source: `handleMouseMove` (AnnotationList.tsx lines 818-890).  The
pointer-move eraser branch (lines 864-871) has no `locked` check, unlike the
pointer-down one. -/
def handleMouseMoveC (s : CanvasState) (e : Point) : CanvasState :=
  let pos := relPosC s e
  match s.dragStart with
  | some d => { s with position := ⟨e.x - d.x, e.y - d.y⟩ }
  | none =>
    match s.isResizing, s.selectedAnn, s.resizeHandle, s.resizeStart with
    | true, some selId, some h, some st =>
      (match s.anns.find? (fun a => a.id == selId) with
       | some selAnn =>
         let resized := resizeAnn s.resizeAnchor selAnn (some h) pos st
         { s with
           anns := s.anns.map fun a => if a.id == selId then resized else a
           resizeStart := some pos }
       | none => s)
    | _, _, _, _ =>
      let s1 :=
        if !s.isDrawing && !s.isDragging && (s.activeTool == AnnType.select)
            && s.selectedAnn.isSome then
          match s.selectedAnn with
          | some selId =>
            (match s.anns.find? (fun a => a.id == selId) with
             | some selAnn =>
               let h := getResizeHandleAtPoint s.zoom pos selAnn
               if h ≠ s.resizeHandle then { s with resizeHandle := h } else s
             | none => s)
          | none => s
        else if !s.isResizing && s.resizeHandle.isSome then
          { s with resizeHandle := none }
        else s
      match s1.isDragging, s1.selectedAnn, s1.dragOffset with
      | true, some selId, some off =>
        { s1 with
          anns := s1.anns.map fun a =>
            if a.id == selId then moveAnn a (pos.x - off.x) (pos.y - off.y) else a
          dragOffset := some pos }
      | _, _, _ =>
        if s1.isErasing && (s1.activeTool == AnnType.eraser) then
          match s1.anns.find? (fun a => isPointNearAnn s1.zoom pos a) with
          | some toRemove =>
            { s1 with anns := s1.anns.filter fun a => a.id != toRemove.id }
          | none => s1
        else if (s1.activeTool == AnnType.angle) && s1.currentAnnRef.isSome
            && decide (0 < s1.angleStep) then
          match s1.currentAnnRef with
          | some c =>
            if s1.angleStep = 1 then
              let c2 := { c with points := [c.points.getD 0 ⟨0, 0⟩, pos] }
              { s1 with currentAnn := some c2, currentAnnRef := some c2 }
            else if s1.angleStep = 2 ∧ 2 ≤ c.points.length then
              let c2 :=
                { c with points := [c.points.getD 0 ⟨0, 0⟩, c.points.getD 1 ⟨0, 0⟩, pos] }
              { s1 with currentAnn := some c2, currentAnnRef := some c2 }
            else s1
          | none => s1
        else if s1.isDrawingRef then
          match s1.currentAnnRef with
          | some c =>
            if c.type = AnnType.freehand then
              let c2 := { c with points := c.points ++ [pos] }
              { s1 with currentAnn := some c2, currentAnnRef := some c2 }
            else
              let c2 := { c with points := [c.points.getD 0 ⟨0, 0⟩, pos] }
              { s1 with currentAnn := some c2, currentAnnRef := some c2 }
          | none => s1
        else s1

/-- Source: `handleMouseUp` (AnnotationList.tsx lines 917-976).  The
resize/drag branches call `onAnnotationsChange(annotations)` with the current
collection, which commits a history entry but leaves the collection itself
unchanged. -/
def handleMouseUpC (s : CanvasState) : CanvasState :=
  if s.dragStart.isSome then { s with dragStart := none }
  else if s.isResizing then
    { s with isResizing := false, resizeHandle := none, resizeStart := none,
             resizeAnchor := none }
  else if s.isDragging then { s with isDragging := false, dragOffset := none }
  else if s.isErasing then { s with isErasing := false }
  else
    match s.isDrawing, s.currentAnn with
    | true, some cur =>
      if s.activeTool = AnnType.text ∧ s.textBoxStart.isSome then
        let tbs := s.textBoxStart.getD ⟨0, 0⟩
        let endPos := (cur.points.get? 1).getD tbs
        let width := |endPos.x - tbs.x|
        let height := |endPos.y - tbs.y|
        let s1 :=
          if 20 < width ∧ 15 < height then
            { s with textInput := some ⟨min tbs.x endPos.x, min tbs.y endPos.y,
              max width 100, max height 30, ""⟩ }
          else s
        { s1 with isDrawing := false, isDrawingRef := false, textBoxStart := none,
                  currentAnn := none, currentAnnRef := none }
      else
        let s1 :=
          if cur.type ≠ AnnType.angle ∧ cur.type ≠ AnnType.text then
            { s with anns := s.anns ++ [cur], selectedAnn := some cur.id,
                     activeTool := AnnType.select }
          else s
        let s2 := { s1 with isDrawing := false, isDrawingRef := false }
        if cur.type ≠ AnnType.angle then
          { s2 with currentAnn := none, currentAnnRef := none }
        else s2
    | _, _ => s

/-- Source: `handleTextSubmit` (AnnotationList.tsx lines 978-993). -/
def handleTextSubmitC (s : CanvasState) : CanvasState :=
  match s.textInput with
  | some ti =>
    if ti.value.trim ≠ "" then
      let ta : Annot :=
        { id := s.nextId, type := AnnType.text,
          points := [⟨ti.x, ti.y⟩, ⟨ti.x + ti.width, ti.y + ti.height⟩],
          color := annColor AnnType.text,
          text := some ti.value.trim,
          label := some (countLabel AnnType.text s.anns) }
      { s with anns := s.anns ++ [ta], selectedAnn := some ta.id,
               activeTool := AnnType.select, textInput := none,
               nextId := s.nextId + 1 }
    else { s with textInput := none }
  | none => { s with textInput := none }

/-! ## Claim C1: locked shapes versus canvas gestures -/

/-- A locked line shape lying under the pointer positions used below. -/
def lockedLine : Annot :=
  { id := 7, type := AnnType.line, points := [⟨0, 0⟩, ⟨10, 0⟩],
    color := "#f59e0b", locked := true }

/-- A mid-gesture erasing state: eraser active, `isErasing` set by the
pointer-down, the locked line in the collection. -/
def c1State : CanvasState :=
  { initCanvas with anns := [lockedLine], activeTool := AnnType.eraser,
                    isErasing := true }

/-- Claim C1 (code bug): the pointer-down eraser respects the locked flag
(the shape survives the down event), but the pointer-move eraser branch has no
locked check and removes the locked shape from the collection. -/
theorem c1_eraser_move_removes_locked :
    lockedLine.locked = true ∧
    (handleMouseDownC { initCanvas with
                        anns := [lockedLine], activeTool := AnnType.eraser }
      ⟨5, 1⟩).anns = [lockedLine] ∧
    (handleMouseMoveC c1State ⟨5, 1⟩).anns = [] := by
  refine ⟨rfl, ?_, ?_⟩
  · norm_num [handleMouseDownC, relPosC, initCanvas, lockedLine,
      isPointNearAnn, isNearT, segNear, sqQ, sqrtLtQ, List.find?]
    all_goals decide
  · norm_num [handleMouseMoveC, relPosC, c1State, initCanvas, lockedLine,
      isPointNearAnn, isNearT, segNear, sqQ, sqrtLtQ, List.find?]

/-! ## Claim C2: minimum-size checks at commit time -/

/-- Claim C2 counterexample: a press-and-release of the box tool with no
pointer movement commits a zero-size box (both corners at `(3,4)`): degenerate
drawing gestures other than text are not discarded. -/
theorem c2_zero_size_box_committed :
    ((handleMouseUpC (handleMouseDownC
        { initCanvas with activeTool := AnnType.box } ⟨3, 4⟩)).anns.map
      fun a => (a.type, a.points)) = [(AnnType.box, [⟨3, 4⟩, ⟨3, 4⟩])] := by
  norm_num [handleMouseDownC, handleMouseUpC, relPosC, initCanvas, countLabel,
    capName, annColor]
  all_goals decide

/-- Claim C2 as amended: only the text tool applies a minimum-size check at
gesture completion.  A completed text gesture whose tracked rectangle has
width ≤ 20 or height ≤ 15 is silently discarded (collection and text-entry
affordance unchanged); every other completed drawing shape (angle and text
excluded by the commit branch) is appended unconditionally, degenerate or
not. -/
theorem c2_amended_min_size (s : CanvasState) (cur : Annot) (tbs : Point)
    (h1 : s.dragStart = none) (h2 : s.isResizing = false) (h3 : s.isDragging = false)
    (h4 : s.isErasing = false) (h5 : s.isDrawing = true) (h6 : s.currentAnn = some cur) :
    (s.activeTool = AnnType.text → s.textBoxStart = some tbs →
      ¬(20 < |((cur.points.get? 1).getD tbs).x - tbs.x| ∧
        15 < |((cur.points.get? 1).getD tbs).y - tbs.y|) →
      (handleMouseUpC s).anns = s.anns ∧ (handleMouseUpC s).textInput = s.textInput) ∧
    (¬(s.activeTool = AnnType.text ∧ s.textBoxStart.isSome) →
      cur.type ≠ AnnType.angle → cur.type ≠ AnnType.text →
      (handleMouseUpC s).anns = s.anns ++ [cur]) := by
  constructor
  · intro htool htbs hsmall
    simp only [handleMouseUpC, h1, h2, h3, h4, h5, h6, htool, htbs, Option.isSome_none,
      Option.isSome_some, Bool.false_eq_true, if_false, eq_self_iff_true, and_self,
      if_true, Option.getD_some]
    rw [if_neg hsmall]
    exact ⟨rfl, rfl⟩
  · intro hnot ha ht
    have hcomm : cur.type ≠ AnnType.angle ∧ cur.type ≠ AnnType.text := ⟨ha, ht⟩
    simp only [handleMouseUpC, h1, h2, h3, h4, h5, h6, Option.isSome_none,
      Bool.false_eq_true, if_false, if_neg hnot, if_pos hcomm, if_pos ha]

/-- The current shape of an undersized text gesture used by the witness. -/
def smallTextCur : Annot :=
  { id := 9, type := AnnType.text, points := [⟨0, 0⟩, ⟨5, 5⟩], color := "#a855f7" }

/-- The mid-gesture state of that undersized text gesture. -/
def smallTextState : CanvasState :=
  { initCanvas with activeTool := AnnType.text, isDrawing := true,
                    textBoxStart := some ⟨0, 0⟩, currentAnn := some smallTextCur }

theorem c2_amended_min_size_witness :
    smallTextState.isDrawing = true ∧
    smallTextState.currentAnn = some smallTextCur ∧
    (handleMouseUpC smallTextState).anns = smallTextState.anns ∧
    (handleMouseUpC smallTextState).textInput = smallTextState.textInput :=
  ⟨rfl, rfl,
   ((c2_amended_min_size smallTextState smallTextCur ⟨0, 0⟩ rfl rfl rfl rfl rfl rfl).1
      rfl rfl (by norm_num [smallTextCur])).1,
   ((c2_amended_min_size smallTextState smallTextCur ⟨0, 0⟩ rfl rfl rfl rfl rfl rfl).1
      rfl rfl (by norm_num [smallTextCur])).2⟩

/-! ## Claim C5: point counts of committed shapes -/

/-- An event trace that is a legal alternation of pointer-down / pointer-up /
pointer-move events with keyboard tool switches: start an angle (two placing
clicks leave `angleStep = 2`), switch to the box tool and start drawing a box
(the stale `angleStep` survives), switch back to the angle tool while the
button is held, move, and release. -/
def c5Trace : CanvasState :=
  handleMouseUpC
    (handleMouseMoveC
      (setToolC
        (handleMouseDownC
          (setToolC
            (handleMouseUpC
              (handleMouseDownC
                (handleMouseUpC
                  (handleMouseDownC { initCanvas with activeTool := AnnType.angle }
                    ⟨0, 0⟩))
                ⟨5, 0⟩))
            AnnType.box)
          ⟨100, 100⟩)
        AnnType.angle)
      ⟨110, 110⟩)

/-- The in-progress angle after the first placing click. -/
def c5a1 : Annot :=
  { id := 1, type := AnnType.angle, points := [⟨0, 0⟩, ⟨0, 0⟩],
    color := "#06b6d4", label := some (countLabel AnnType.angle []) }

/-- The in-progress angle after the second placing click. -/
def c5a2 : Annot := { c5a1 with points := [⟨0, 0⟩, ⟨5, 0⟩, ⟨5, 0⟩] }

/-- The in-progress box started while `angleStep = 2` is still set. -/
def c5a3 : Annot :=
  { id := 2, type := AnnType.box, points := [⟨100, 100⟩, ⟨100, 100⟩],
    color := "#22c55e", label := some (countLabel AnnType.box []) }

/-- The box after the angle-preview move branch rewrote it to three points. -/
def c5a4 : Annot := { c5a3 with points := [⟨100, 100⟩, ⟨100, 100⟩, ⟨110, 110⟩] }

def c5s1 : CanvasState :=
  { initCanvas with activeTool := AnnType.angle, currentAnn := some c5a1,
                    currentAnnRef := some c5a1, angleStep := 1, nextId := 2 }

def c5s2 : CanvasState :=
  { c5s1 with currentAnn := some c5a2, currentAnnRef := some c5a2, angleStep := 2 }

def c5s3 : CanvasState := { c5s2 with activeTool := AnnType.box }

def c5s4 : CanvasState :=
  { c5s3 with isDrawing := true, isDrawingRef := true, currentAnn := some c5a3,
              currentAnnRef := some c5a3, nextId := 3 }

def c5s5 : CanvasState := { c5s4 with activeTool := AnnType.angle }

def c5s6 : CanvasState :=
  { c5s5 with currentAnn := some c5a4, currentAnnRef := some c5a4 }

def c5s7 : CanvasState :=
  { c5s6 with anns := [c5a4], selectedAnn := some 2, activeTool := AnnType.select,
              isDrawing := false, isDrawingRef := false, currentAnn := none,
              currentAnnRef := none }

theorem c5step1 :
    handleMouseDownC { initCanvas with activeTool := AnnType.angle } ⟨0, 0⟩ = c5s1 := by
  norm_num [handleMouseDownC, relPosC, initCanvas, c5s1, c5a1, countLabel, capName,
    annColor]
  all_goals decide

theorem c5step2 : handleMouseUpC c5s1 = c5s1 := by
  norm_num [handleMouseUpC, c5s1, initCanvas]

theorem c5step3 : handleMouseDownC c5s1 ⟨5, 0⟩ = c5s2 := by
  norm_num [handleMouseDownC, relPosC, initCanvas, c5s1, c5s2, c5a1, c5a2, List.getD]
  all_goals decide

theorem c5step4 : handleMouseUpC c5s2 = c5s2 := by
  norm_num [handleMouseUpC, c5s2, c5s1, initCanvas]

theorem c5step5 : setToolC c5s2 AnnType.box = c5s3 := by
  norm_num [setToolC, c5s2, c5s3, c5s1, initCanvas]
  all_goals decide

theorem c5step6 : handleMouseDownC c5s3 ⟨100, 100⟩ = c5s4 := by
  norm_num [handleMouseDownC, relPosC, initCanvas, c5s1, c5s2, c5s3, c5s4, c5a3,
    countLabel, capName, annColor]
  all_goals decide

theorem c5step7 : setToolC c5s4 AnnType.angle = c5s5 := by
  norm_num [setToolC, c5s4, c5s5, c5s3, c5s2, c5s1, initCanvas]
  all_goals decide

theorem c5step8 : handleMouseMoveC c5s5 ⟨110, 110⟩ = c5s6 := by
  norm_num [handleMouseMoveC, relPosC, initCanvas, c5s1, c5s2, c5s3, c5s4, c5s5, c5s6,
    c5a3, c5a4, List.getD]
  all_goals decide

theorem c5step9 : handleMouseUpC c5s6 = c5s7 := by
  norm_num [handleMouseUpC, initCanvas, c5s1, c5s2, c5s3, c5s4, c5s5, c5s6, c5s7,
    c5a3, c5a4]
  all_goals decide

/-- Claim C5 (code bug): after the trace above, the committed collection holds
a `box`-variant shape with THREE points — the abandoned angle gesture leaves
`angleStep = 2` behind, the pointer-move angle-preview branch then rewrites
the in-progress box to three points, and the pointer-up commit appends it. -/
theorem c5_three_point_box_committed :
    (c5Trace.anns.map fun a => (a.type, a.points.length)) = [(AnnType.box, 3)] ∧
    (c5Trace.anns.map fun a => a.points) = [[⟨100, 100⟩, ⟨100, 100⟩, ⟨110, 110⟩]] := by
  have htr : c5Trace = c5s7 := by
    unfold c5Trace
    rw [c5step1, c5step2, c5step3, c5step4, c5step5, c5step6, c5step7, c5step8, c5step9]
  rw [htr]
  constructor <;> decide

/-! ## Claim C6: the resize damping reference point -/

/-- The unlocked box being resized in the C6 states. -/
def c6Ann : Annot :=
  { id := 3, type := AnnType.box, points := [⟨0, 0⟩, ⟨10, 10⟩], color := "#22c55e" }

/-- A mid-resize state: the `se` handle grabbed at `(10,10)` (which is both
the gesture start recorded at pointer-down and the initial `resizeStart`),
anchor `(0,0)`. -/
def c6State : CanvasState :=
  { initCanvas with anns := [c6Ann], selectedAnn := some 3,
                    isResizing := true, resizeHandle := some ResizeHandle.se,
                    resizeStart := some ⟨10, 10⟩, resizeAnchor := some ⟨0, 0⟩ }

/-- Claim C6 counterexample: two consecutive pointer-moves to the same raw
position `(20,20)`.  If the damping reference were the gesture's pointer-down
start `(10,10)` fixed for the whole gesture, the dragged point would be
`10 + (20-10)*0.7 = 17` on both moves; the code instead re-records
`resizeStart` to the raw position after every move, so the second move lands
the dragged point at `20 + (20-20)*0.7 = 20 ≠ 17`. -/
theorem c6_damping_reference_counterexample :
    ((handleMouseMoveC (handleMouseMoveC c6State ⟨20, 20⟩) ⟨20, 20⟩).anns.map
        fun a => a.points) = [[⟨0, 0⟩, ⟨20, 20⟩]] ∧
    (handleMouseMoveC (handleMouseMoveC c6State ⟨20, 20⟩) ⟨20, 20⟩).resizeStart =
      some ⟨20, 20⟩ ∧
    (⟨20, 20⟩ : Point) ≠
      ⟨10 + (20 - 10) * (7 / 10), 10 + (20 - 10) * (7 / 10)⟩ := by
  refine ⟨?_, ?_, ?_⟩
  · norm_num [handleMouseMoveC, relPosC, c6State, initCanvas, c6Ann, resizeAnn,
      List.find?, List.getD]
    all_goals decide
  · norm_num [handleMouseMoveC, relPosC, c6State, initCanvas, c6Ann, resizeAnn,
      List.find?, List.getD]
    all_goals decide
  · norm_num [Point.mk.injEq]

theorem resizeAnn_corner (anc : Point) (a : Annot) (h : ResizeHandle) (np sp : Point)
    (hc : h = ResizeHandle.nw ∨ h = ResizeHandle.ne ∨ h = ResizeHandle.sw ∨
      h = ResizeHandle.se)
    (hlock : a.locked = false) (hlen : 2 ≤ a.points.length) :
    resizeAnn (some anc) a (some h) np sp =
      { a with points := [anc,
          ⟨sp.x + (np.x - sp.x) * (7 / 10), sp.y + (np.y - sp.y) * (7 / 10)⟩] } := by
  have hcond : ¬(a.points.length < 2 ∨ a.locked = true) := by
    simp [hlock]
    omega
  have hnlt : ¬a.points.length < 2 := by omega
  rcases hc with h1 | h1 | h1 | h1 <;> subst h1 <;>
    simp [resizeAnn, hcond, hnlt, hlock]

/-- Claim C6 as amended: during a Resizing gesture with a corner handle, every
pointer-move sets the dragged point to `prev + (raw - prev) * 0.7`, where
`prev` is the pointer position recorded by the PREVIOUS move (initially the
pointer-down position) — and the handler re-records `resizeStart` to the raw
position after every move, so the damping reference is incremental, not fixed
at pointer-down. -/
theorem c6_amended_damping (s : CanvasState) (selId : Nat) (h : ResizeHandle)
    (st : Point) (e : Point) (a0 : Annot) (anc : Point)
    (hd : s.dragStart = none) (hr : s.isResizing = true)
    (hsel : s.selectedAnn = some selId) (hh : s.resizeHandle = some h)
    (hst : s.resizeStart = some st) (hanc : s.resizeAnchor = some anc)
    (hfind : s.anns.find? (fun a => a.id == selId) = some a0)
    (hc : h = ResizeHandle.nw ∨ h = ResizeHandle.ne ∨ h = ResizeHandle.sw ∨
      h = ResizeHandle.se)
    (hlock : a0.locked = false) (hlen : 2 ≤ a0.points.length) :
    (handleMouseMoveC s e).resizeStart = some (relPosC s e) ∧
    (handleMouseMoveC s e).anns = s.anns.map fun a =>
      if a.id == selId then
        { a0 with points := [anc,
            ⟨st.x + ((relPosC s e).x - st.x) * (7 / 10),
             st.y + ((relPosC s e).y - st.y) * (7 / 10)⟩] }
      else a := by
  have hres := resizeAnn_corner anc a0 h (relPosC s e) st hc hlock hlen
  simp only [handleMouseMoveC, hd, hr, hsel, hh, hst, hanc, hfind, hres]
  exact ⟨trivial, trivial⟩

theorem c6_amended_damping_witness :
    c6State.resizeStart = some ⟨10, 10⟩ ∧
    c6State.anns.find? (fun a => a.id == 3) = some c6Ann ∧
    (handleMouseMoveC c6State ⟨20, 20⟩).resizeStart =
      some (relPosC c6State ⟨20, 20⟩) ∧
    ((handleMouseMoveC c6State ⟨20, 20⟩).anns = c6State.anns.map fun a =>
      if a.id == 3 then
        { c6Ann with points := [⟨0, 0⟩,
            ⟨10 + ((relPosC c6State ⟨20, 20⟩).x - 10) * (7 / 10),
             10 + ((relPosC c6State ⟨20, 20⟩).y - 10) * (7 / 10)⟩] }
      else a) :=
  ⟨rfl, by decide,
   (c6_amended_damping c6State 3 ResizeHandle.se ⟨10, 10⟩ ⟨20, 20⟩ c6Ann ⟨0, 0⟩
      rfl rfl rfl rfl rfl rfl (by decide) (Or.inr (Or.inr (Or.inr rfl))) rfl
      (by decide)).1,
   (c6_amended_damping c6State 3 ResizeHandle.se ⟨10, 10⟩ ⟨20, 20⟩ c6Ann ⟨0, 0⟩
      rfl rfl rfl rfl rfl rfl (by decide) (Or.inr (Or.inr (Or.inr rfl))) rfl
      (by decide)).2⟩

/-! ## Claim C9: zoom-invariance of hit-testing
Scaling a point/shape by a factor `k` (all coordinates multiplied by `k`). -/

def scalePoint (k : ℚ) (p : Point) : Point := ⟨k * p.x, k * p.y⟩

def scaleAnn (k : ℚ) (a : Annot) : Annot :=
  { a with points := a.points.map (scalePoint k) }

theorem qmin_smul {k : ℚ} (hk : 0 ≤ k) (a b : ℚ) : min (k * a) (k * b) = k * min a b := by
  rcases le_total a b with hab | hab
  · rw [min_eq_left hab, min_eq_left (by exact mul_le_mul_of_nonneg_left hab hk)]
  · rw [min_eq_right hab, min_eq_right (by exact mul_le_mul_of_nonneg_left hab hk)]

theorem qmax_smul {k : ℚ} (hk : 0 ≤ k) (a b : ℚ) : max (k * a) (k * b) = k * max a b := by
  rcases le_total a b with hab | hab
  · rw [max_eq_right hab, max_eq_right (by exact mul_le_mul_of_nonneg_left hab hk)]
  · rw [max_eq_left hab, max_eq_left (by exact mul_le_mul_of_nonneg_left hab hk)]

theorem sqrtLtQ_scale {k : ℚ} (hk : 0 < k) (a b : ℚ) :
    sqrtLtQ (k ^ 2 * a) (k * b) = sqrtLtQ a b := by
  have h1 : (0 < k * b) ↔ (0 < b) := by
    constructor
    · intro h
      nlinarith
    · intro h
      exact mul_pos hk h
  have h2 : (k ^ 2 * a < k * b * (k * b)) ↔ (a < b * b) := by
    rw [show k * b * (k * b) = k ^ 2 * (b * b) by ring]
    exact mul_lt_mul_left (by positivity)
  rw [sqrtLtQ, sqrtLtQ, decide_eq_decide.mpr h1, decide_eq_decide.mpr h2]

theorem sqrtLeQ_scale {k : ℚ} (hk : 0 < k) (a b : ℚ) :
    sqrtLeQ (k ^ 2 * a) (k * b) = sqrtLeQ a b := by
  have h1 : (0 ≤ k * b) ↔ (0 ≤ b) := by
    constructor
    · intro h
      nlinarith
    · intro h
      exact mul_nonneg hk.le h
  have h2 : (k ^ 2 * a ≤ k * b * (k * b)) ↔ (a ≤ b * b) := by
    rw [show k * b * (k * b) = k ^ 2 * (b * b) by ring]
    exact mul_le_mul_left (by positivity)
  rw [sqrtLeQ, sqrtLeQ, decide_eq_decide.mpr h1, decide_eq_decide.mpr h2]

theorem ltSqrtQ_scale {k : ℚ} (hk : 0 < k) (a b : ℚ) :
    ltSqrtQ (k * b) (k ^ 2 * a) = ltSqrtQ b a := by
  have h1 : (k * b < 0) ↔ (b < 0) := by
    constructor
    · intro h
      nlinarith
    · intro h
      exact mul_neg_of_pos_of_neg hk h
  have h2 : (k * b * (k * b) < k ^ 2 * a) ↔ (b * b < a) := by
    rw [show k * b * (k * b) = k ^ 2 * (b * b) by ring]
    exact mul_lt_mul_left (by positivity)
  rw [ltSqrtQ, ltSqrtQ, decide_eq_decide.mpr h1, decide_eq_decide.mpr h2]

theorem segNear_scale {k : ℚ} (hk : 0 < k) (t : ℚ) (pos p q : Point) :
    segNear (k * t) (scalePoint k pos) (scalePoint k p) (scalePoint k q) =
      segNear t pos p q := by
  have hk2 : (0 : ℚ) < k ^ 2 := by positivity
  by_cases hz : sqQ (q.x - p.x) + sqQ (q.y - p.y) = 0
  · have hz2 : sqQ ((scalePoint k q).x - (scalePoint k p).x) +
        sqQ ((scalePoint k q).y - (scalePoint k p).y) = 0 := by
      simp only [scalePoint, sqQ] at hz ⊢
      nlinarith [hz]
    rw [segNear, segNear]
    simp [hz, hz2]
  · have hz2 : ¬(sqQ ((scalePoint k q).x - (scalePoint k p).x) +
        sqQ ((scalePoint k q).y - (scalePoint k p).y) = 0) := by
      simp only [scalePoint, sqQ] at hz ⊢
      intro hcon
      apply hz
      nlinarith [hcon]
    rw [segNear, segNear]
    simp only [scalePoint, sqQ] at hz2 hz ⊢
    rw [if_neg hz2, if_neg hz]
    have htt : (k * pos.x - k * p.x) * (k * q.x - k * p.x) +
          (k * pos.y - k * p.y) * (k * q.y - k * p.y) =
        k ^ 2 * ((pos.x - p.x) * (q.x - p.x) + (pos.y - p.y) * (q.y - p.y)) := by
      ring
    have hll : (k * q.x - k * p.x) * (k * q.x - k * p.x) +
          (k * q.y - k * p.y) * (k * q.y - k * p.y) =
        k ^ 2 * ((q.x - p.x) * (q.x - p.x) + (q.y - p.y) * (q.y - p.y)) := by
      ring
    rw [htt, hll, mul_div_mul_left _ _ (ne_of_gt hk2)]
    have hdist : ∀ tp : ℚ,
        (k * pos.x - (k * p.x + tp * (k * q.x - k * p.x))) *
            (k * pos.x - (k * p.x + tp * (k * q.x - k * p.x))) +
          (k * pos.y - (k * p.y + tp * (k * q.y - k * p.y))) *
            (k * pos.y - (k * p.y + tp * (k * q.y - k * p.y))) =
        k ^ 2 * ((pos.x - (p.x + tp * (q.x - p.x))) * (pos.x - (p.x + tp * (q.x - p.x))) +
          (pos.y - (p.y + tp * (q.y - p.y))) * (pos.y - (p.y + tp * (q.y - p.y)))) := by
      intro tp
      ring
    rw [hdist, sqrtLtQ_scale hk]

theorem anySegNear_scale {k : ℚ} (hk : 0 < k) (t : ℚ) (pos : Point) :
    ∀ ps : List Point,
      anySegNear (k * t) (scalePoint k pos) (ps.map (scalePoint k)) =
        anySegNear t pos ps
  | [] => rfl
  | [p] => rfl
  | p :: q :: rest => by
    have ih := anySegNear_scale hk t pos (q :: rest)
    simp only [List.map_cons] at ih ⊢
    simp only [anySegNear, segNear_scale hk, ih]

theorem sqQ_smul (k m : ℚ) : sqQ (k * m) = k ^ 2 * sqQ m := by
  unfold sqQ
  ring

theorem isNearT_scale (k t : ℚ) (pos : Point) (a : Annot) (hk : 0 < k)
    (hm : a.type ≠ AnnType.marker) :
    isNearT (k * t) (scalePoint k pos) (scaleAnn k a) = isNearT t pos a := by
  obtain ⟨i, ty, pts, col, tx, lb, lk⟩ := a
  simp only [scaleAnn] at hm ⊢
  cases ty with
  | marker => exact absurd rfl hm
  | box =>
    match pts with
    | [] => rfl
    | [p0] => rfl
    | p0 :: p1 :: rest =>
      simp only [isNearT, List.map_cons, twoBounds, scalePoint, qmin_smul hk.le,
        qmax_smul hk.le, ← mul_sub, ← mul_add, abs_mul, abs_of_pos hk,
        mul_le_mul_left hk, mul_lt_mul_left hk]
  | circle =>
    match pts with
    | [] => rfl
    | [p0] => rfl
    | p0 :: p1 :: rest =>
      simp only [isNearT, List.map_cons, scalePoint, circleRadius, ← mul_add,
        ← mul_sub, abs_mul, abs_of_pos hk, qmax_smul hk.le, mul_div_assoc,
        sqQ_smul, sqrtLtQ_scale hk, sqrtLeQ_scale hk, ltSqrtQ_scale hk]
  | ellipse =>
    match pts with
    | [] => rfl
    | [p0] => rfl
    | p0 :: p1 :: rest =>
      simp only [isNearT, List.map_cons, scalePoint]
      have hrx : |k * p1.x - k * p0.x| / 2 = k * (|p1.x - p0.x| / 2) := by
        rw [show k * p1.x - k * p0.x = k * (p1.x - p0.x) by ring, abs_mul,
          abs_of_pos hk]
        ring
      have hry : |k * p1.y - k * p0.y| / 2 = k * (|p1.y - p0.y| / 2) := by
        rw [show k * p1.y - k * p0.y = k * (p1.y - p0.y) by ring, abs_mul,
          abs_of_pos hk]
        ring
      rw [hrx, hry]
      have hcond : (k * (|p1.x - p0.x| / 2) = 0 ∨ k * (|p1.y - p0.y| / 2) = 0) ↔
          (|p1.x - p0.x| / 2 = 0 ∨ |p1.y - p0.y| / 2 = 0) := by
        simp [mul_eq_zero, hk.ne']
      by_cases hz : |p1.x - p0.x| / 2 = 0 ∨ |p1.y - p0.y| / 2 = 0
      · rw [if_pos (hcond.mpr hz), if_pos hz]
      · rw [if_neg (fun hcon => hz (hcond.mp hcon)), if_neg hz]
        have hex : (k * pos.x - (k * p0.x + k * p1.x) / 2) / (k * (|p1.x - p0.x| / 2)) =
            (pos.x - (p0.x + p1.x) / 2) / (|p1.x - p0.x| / 2) := by
          rw [show k * pos.x - (k * p0.x + k * p1.x) / 2 =
            k * (pos.x - (p0.x + p1.x) / 2) by ring,
            mul_div_mul_left _ _ hk.ne']
        have hey : (k * pos.y - (k * p0.y + k * p1.y) / 2) / (k * (|p1.y - p0.y| / 2)) =
            (pos.y - (p0.y + p1.y) / 2) / (|p1.y - p0.y| / 2) := by
          rw [show k * pos.y - (k * p0.y + k * p1.y) / 2 =
            k * (pos.y - (p0.y + p1.y) / 2) by ring,
            mul_div_mul_left _ _ hk.ne']
        have hth : 1 + k * t / min (k * (|p1.x - p0.x| / 2)) (k * (|p1.y - p0.y| / 2)) =
            1 + t / min (|p1.x - p0.x| / 2) (|p1.y - p0.y| / 2) := by
          rw [qmin_smul hk.le, mul_div_mul_left _ _ hk.ne']
        rw [hex, hey, hth]
  | line =>
    match pts with
    | [] => rfl
    | [p0] => rfl
    | p0 :: p1 :: rest => simp only [isNearT, List.map_cons, segNear_scale hk]
  | ruler =>
    match pts with
    | [] => rfl
    | [p0] => rfl
    | p0 :: p1 :: rest => simp only [isNearT, List.map_cons, segNear_scale hk]
  | angle =>
    simp only [isNearT, List.length_map, anySegNear_scale hk]
  | freehand =>
    simp only [isNearT, List.any_map]
    congr 1
    funext p
    simp only [Function.comp, scalePoint, ← mul_sub, sqQ_smul, ← mul_add,
      sqrtLtQ_scale hk]
  | text =>
    match pts with
    | [] => rfl
    | [p0] => rfl
    | p0 :: p1 :: rest =>
      simp only [isNearT, List.map_cons, twoBounds, scalePoint, qmin_smul hk.le,
        qmax_smul hk.le, ← mul_sub, ← mul_add, abs_mul, abs_of_pos hk,
        mul_le_mul_left hk, mul_lt_mul_left hk]
  | select => rfl
  | eraser => rfl

/-- The unlocked line used by the C9 counterexample and witness. -/
def c9Line : Annot :=
  { id := 4, type := AnnType.line, points := [⟨0, 0⟩, ⟨10, 0⟩], color := "#f59e0b" }

/-- Claim C9 counterexample: hit-testing the fixed line `(0,0)-(10,0)` at
zoom 1 with screen offset `(5,10)` hits (image point `(5,10)`, threshold 15,
distance 10), but at zoom 3 with the offset scaled by 3 it misses (same image
point, threshold 5): scaling the zoom and the screen-space offset by the same
factor does NOT produce an identical hit-test result. -/
theorem c9_zoom_offset_scaling_counterexample :
    hitAt 1 ⟨5, 10⟩ c9Line = true ∧ hitAt 3 ⟨3 * 5, 3 * 10⟩ c9Line = false := by
  constructor <;>
    norm_num [hitAt, isPointNearAnn, isNearT, segNear, sqQ, sqrtLtQ, c9Line]

/-- Claim C9 as amended: for every non-marker shape, scaling the shape's image
coordinates, the pointer's image position and the image-space threshold by the
same positive factor preserves the hit-test result; consequently (threshold
`15/zoom`) hit-testing a screen offset at zoom `z` equals the constant
threshold-15 screen-space test against the `z`-scaled shape — the screen-space
capture margin is 15 pixels at every zoom.  (The marker variant is excluded:
its hit radius adds the fixed image-space constant 15.) -/
theorem c9_amended_scale_invariance :
    (∀ (k t : ℚ) (pos : Point) (a : Annot), 0 < k → a.type ≠ AnnType.marker →
      isNearT (k * t) (scalePoint k pos) (scaleAnn k a) = isNearT t pos a) ∧
    (∀ (z : ℚ) (o : Point) (a : Annot), 0 < z → a.type ≠ AnnType.marker →
      hitAt z o a = isNearT 15 o (scaleAnn z a)) := by
  refine ⟨fun k t pos a hk hm => isNearT_scale k t pos a hk hm, ?_⟩
  intro z o a hz hm
  have h := isNearT_scale z (15 / z) ⟨o.x / z, o.y / z⟩ a hz hm
  have h1 : z * (15 / z) = 15 := by field_simp
  have h2 : scalePoint z ⟨o.x / z, o.y / z⟩ = o := by
    obtain ⟨ox, oy⟩ := o
    simp only [scalePoint, Point.mk.injEq]
    constructor <;> field_simp
  rw [h1, h2] at h
  rw [hitAt, isPointNearAnn]
  exact h.symm

theorem c9_amended_scale_invariance_witness :
    (0 : ℚ) < 2 ∧ c9Line.type ≠ AnnType.marker ∧
    isNearT (2 * 3) (scalePoint 2 ⟨5, 1⟩) (scaleAnn 2 c9Line) =
      isNearT 3 ⟨5, 1⟩ c9Line :=
  ⟨by norm_num, by decide,
   c9_amended_scale_invariance.1 2 3 ⟨5, 1⟩ c9Line (by norm_num) (by decide)⟩
